import Mathlib

/-!
TCP echo server: the message protocol and the session loop of `server.go`.

A shallow embedding of `processMessage`, `handleCommand`, `createLogFile`
and the read loop of `handleConnection`, with the properties of the
specification stated over it.

Go strings are byte sequences; a byte is a natural number.  The functions
of Go's `strings` package used by the server are modelled on bytes.  Their
behaviour on ASCII bytes is written out; what they do at a byte `≥ 0x80`
depends on Go's Unicode tables, which are not part of the server, and is
taken from a `Unicode` record that every definition receives.  The wall
clock is an input as well: the text `time.Now().Format(...)` gives is
passed in where the code asks for it.  A session is a function of the
outcomes of its reads; of the connection it keeps what was handed to the
writer, what the flushes wrote, and whether the deadline that
`conn.SetDeadline` set for reads and writes has passed.
-/

namespace EchoServer

/-! ## Strings -/

/-- A Go string: its bytes. -/
abbrev GoString := List Nat

/-- The bytes of a string literal of the source (all of them are ASCII). -/
def lit (s : String) : GoString := s.toList.map Char.toNat

/-- What the server needs of Go's Unicode tables, at bytes `≥ 0x80`.

* `lowerRune s`, for `s` starting with a byte `≥ 0x80`: the UTF-8 encoding of
  `unicode.ToLower` of the first rune of `s` (of `utf8.RuneError` when the
  bytes are not valid UTF-8), and the number of bytes that rune takes.
* `trimFunc s` is `strings.TrimFunc(s, unicode.IsSpace)` and
  `trimRightFunc s` is `strings.TrimRightFunc(s, unicode.IsSpace)`. -/
structure Unicode where
  lowerRune : GoString → GoString × Nat
  trimFunc : GoString → GoString
  trimRightFunc : GoString → GoString

/-- Lower-casing of an ASCII rune, the first branch of `unicode.ToLower`. -/
def lowerASCII (c : Nat) : Nat :=
  if 65 ≤ c ∧ c ≤ 90 then c + 32 else c

/-- The loop of `strings.Map(unicode.ToLower, s)`: rune by rune, the
lower-cased runes are appended to the output.  `skip` counts the bytes of
the current rune that are still to be passed over. -/
def mapLower (u : Unicode) : Nat → GoString → GoString
  | _, [] => []
  | skip + 1, _ :: cs => mapLower u skip cs
  | 0, c :: cs =>
    if c < 128 then lowerASCII c :: mapLower u 0 cs
    else (u.lowerRune (c :: cs)).1 ++ mapLower u ((u.lowerRune (c :: cs)).2 - 1) cs

/-- Go's `strings.ToLower`.  (Its fast path for strings without a byte
`≥ 0x80` gives what the rune loop gives on them.) -/
def ToLower (u : Unicode) (s : GoString) : GoString := mapLower u 0 s

/-- Go's `strings.HasPrefix`:
`len(s) >= len(prefix) && s[0:len(prefix)] == prefix`. -/
def HasPrefix (s pre : GoString) : Bool :=
  decide (pre.length ≤ s.length) && decide (s.take pre.length = pre)

/-- Go's `strings.Index` for a non-empty `sep`: the least `i` with
`s[i:i+len(sep)] == sep`, `none` for Go's `-1`. -/
def Index : GoString → GoString → Option Nat
  | [], sep => if sep = [] then some 0 else none
  | c :: cs, sep =>
    if HasPrefix (c :: cs) sep then some 0
    else (Index cs sep).map (· + 1)

/-- The loop of `strings.genSplit` with `sepSave = 0`: at most `k` more
cuts are made, the rest of the string is the last element. -/
def splitLoop (sep : GoString) : Nat → GoString → List GoString
  | 0, s => [s]
  | k + 1, s =>
    match Index s sep with
    | none => [s]
    | some m => s.take m :: splitLoop sep k (s.drop (m + sep.length))

/-- Go's `strings.SplitN(s, sep, n)` for a non-empty `sep` and `n ≥ 0`:
no slice for `n = 0`, else at most `min n (len(s)+1)` pieces. -/
def SplitN (s sep : GoString) (n : Nat) : List GoString :=
  if n = 0 then [] else splitLoop sep (min n (s.length + 1) - 1) s

/-- The loop of `strings.Replace(s, old, new, -1)` for a non-empty `old`:
each occurrence found by `Index`, left to right and without overlap, is
replaced.  `fuel` bounds the number of replacements. -/
def replaceLoop (old new : GoString) : Nat → GoString → GoString
  | 0, s => s
  | fuel + 1, s =>
    match Index s old with
    | none => s
    | some j => s.take j ++ new ++ replaceLoop old new fuel (s.drop (j + old.length))

/-- Go's `strings.ReplaceAll(s, old, new)` for a non-empty `old` (the
server passes one-byte literals); there are at most `len(s)` occurrences. -/
def ReplaceAll (s old new : GoString) : GoString :=
  if old = new ∨ old = [] then s else replaceLoop old new s.length s

/-- Go's `asciiSpace` table: tab, line feed, vertical tab, form feed,
carriage return, space. -/
def asciiSpace (c : Nat) : Bool :=
  c = 9 || c = 10 || c = 11 || c = 12 || c = 13 || c = 32

/-- The second loop of `strings.TrimSpace`, on `s[start:]`: white space is
cut from the end; at a byte `≥ 0x80` the rest is left to `TrimRightFunc`. -/
def trimSpaceEnd (u : Unicode) (s : GoString) : GoString :=
  match s.reverse.dropWhile asciiSpace with
  | [] => []
  | c :: r => if c ≥ 128 then u.trimRightFunc (c :: r).reverse else (c :: r).reverse

/-- Go's `strings.TrimSpace`: ASCII white space is cut from the start; at a
byte `≥ 0x80` the rest is left to `TrimFunc`; then the end is cut. -/
def TrimSpace (u : Unicode) (s : GoString) : GoString :=
  match s.dropWhile asciiSpace with
  | [] => []
  | c :: r => if c ≥ 128 then u.trimFunc (c :: r) else trimSpaceEnd u (c :: r)

/-! ## The message protocol -/

/-- The advisory constant of the source; no function reads it. -/
def maxMessageSize : Nat := 1024

/-- The function `handleCommand` of `server.go`.  `now` is the text of
`time.Now().Format(time.RFC1123)` at the call. -/
def handleCommand (u : Unicode) (now : GoString) (cmd : GoString) : GoString × Bool :=
  let parts := SplitN cmd (lit " ") 2
  let command := ToLower u (parts.getD 0 [])
  if command = lit "/time" then (now, false)
  else if command = lit "/quit" then (lit "Closing connection", true)
  else if command = lit "/echo" then
    if parts.length > 1 then (parts.getD 1 [], false)
    else (lit "Usage: /echo <message>", false)
  else (lit "Unknown command: " ++ command, false)

/-- The function `processMessage` of `server.go`.  `now` is handed on to
`handleCommand`. -/
def processMessage (u : Unicode) (now : GoString) (message : GoString) : GoString × Bool :=
  if message = lit "" then (lit "Say something...", false)
  else if HasPrefix message (lit "/") then handleCommand u now message
  else if ToLower u message = lit "hello" then
    (lit "Hello Wor.... i mean Hello there!", false)
  else if ToLower u message = lit "bye" then (lit "Leaving so soon? Goodbye!", true)
  else (message, false)

/-- A `Unicode` record for examples: a byte `≥ 0x80` is read as an invalid
one-byte rune (lower-cased to the three bytes of U+FFFD) and is no white
space. -/
def plainUnicode : Unicode where
  lowerRune := fun _ => ([239, 191, 189], 1)
  trimFunc := fun s => s
  trimRightFunc := fun s => s

/-! ## The log file and the session loop -/

/-- Lines 93 to 95 of `createLogFile`: the name of the log file of a
client address. -/
def logFileName (clientAddr : GoString) : GoString :=
  let safeAddr := ReplaceAll clientAddr (lit ":") (lit "_")
  let safeAddr := ReplaceAll safeAddr (lit ".") (lit "_")
  lit "client_" ++ safeAddr ++ lit ".log"

/-- The function `createLogFile` of `server.go`.  `openErr name` is the
answer of `os.OpenFile` for `name`: `none` when the file is opened, the
text of the error otherwise.  The result is the handle (the name of the
opened file, `none` for Go's `nil`) and what `log.Printf` prints. -/
def createLogFile (openErr : GoString → Option GoString) (clientAddr : GoString) :
    Option GoString × List GoString :=
  let filename := logFileName clientAddr
  match openErr filename with
  | some err =>
    (none, [lit "Failed to create log file for " ++ clientAddr ++ lit ": " ++ err])
  | none => (some filename, [])

/-- What one `reader.ReadString` call of the loop returns, with the clock
readings taken while a line is handled: `stamp` is
`time.Now().Format(time.RFC3339)` at the log-file write and `clock` is
`time.Now().Format(time.RFC1123)` inside `handleCommand`. -/
inductive ReadOutcome where
  | line (raw stamp clock : GoString)
  | eof
  | timeout
  | otherError (text : GoString)
  deriving DecidableEq

/-- Whether a read returned a line, that is `err == nil`. -/
def ReadOutcome.isLine : ReadOutcome → Bool
  | .line _ _ _ => true
  | _ => false

/-- What a session has done so far. -/
structure Session where
  /-- strings handed to `writer.WriteString`, in order -/
  handed : List GoString
  /-- strings that `writer.Flush` has written to the connection, in order:
  what reaches the client -/
  client : List GoString
  /-- whether the deadline set on the connection has passed -/
  deadlinePassed : Bool
  /-- strings written to the log file by `fmt.Fprintf`, in order -/
  logFile : List GoString
  /-- lines printed by `log.Printf`, in order -/
  serverLog : List GoString
  /-- number of `reader.ReadString` calls that have returned -/
  reads : Nat
  /-- whether the loop has returned -/
  returned : Bool
  /-- whether the deferred calls have closed the connection -/
  closed : Bool
  deriving DecidableEq

/-- The line sent to a client whose read timed out. -/
def timeoutNotice : GoString := lit "Connection timed out due to inactivity\n"

/-- The calls `writer.WriteString(text)` and `writer.Flush()`: the text is
handed to the writer and flushed to the connection with `conn.Write`.  The
deadline that `conn.SetDeadline` sets is the deadline of reads and of
writes alike: once it has passed `conn.Write` fails and writes nothing.
The error is not looked at. -/
def writeFlush (text : GoString) (s : Session) : Session :=
  { s with
    handed := s.handed ++ [text]
    client := if s.deadlinePassed then s.client else s.client ++ [text] }

/-- The `for` loop of `handleConnection` (lines 60 to 88) over the outcomes
of its reads.  Line 61 sets the deadline of the connection anew before each
read: a read that gives a line, the end of the stream or another error has
returned before that deadline; a read that times out has returned because
the deadline has passed.  `logFile` is the handle `createLogFile` gave;
writing to a `nil` file writes nothing.  When the outcomes run out the loop
is waiting in `ReadString`. -/
def sessionLoop (u : Unicode) (clientAddr : GoString) (logFile : Option GoString) :
    Session → List ReadOutcome → Session
  | s, [] => s
  | s, .eof :: _ =>
    { s with
      deadlinePassed := false
      reads := s.reads + 1
      serverLog := s.serverLog ++ [lit "Client " ++ clientAddr ++ lit " closed the connection"]
      returned := true }
  | s, .timeout :: _ =>
    let s1 : Session :=
      { s with
        deadlinePassed := true
        reads := s.reads + 1
        serverLog := s.serverLog ++ [lit "Client " ++ clientAddr ++ lit " timed out"] }
    { writeFlush timeoutNotice s1 with returned := true }
  | s, .otherError text :: _ =>
    { s with
      deadlinePassed := false
      reads := s.reads + 1
      serverLog := s.serverLog ++
        [lit "Error reading from client " ++ clientAddr ++ lit ": " ++ text]
      returned := true }
  | s, .line raw stamp clock :: rest =>
    let message := TrimSpace u raw
    let result := processMessage u clock message
    let s1 : Session :=
      { s with
        deadlinePassed := false
        reads := s.reads + 1
        serverLog := s.serverLog ++ [lit "Received from " ++ clientAddr ++ lit ": " ++ message]
        logFile :=
          if logFile.isSome then s.logFile ++ [stamp ++ lit ": " ++ message ++ lit "\n"]
          else s.logFile }
    let s2 := writeFlush (result.1 ++ lit "\n") s1
    if result.2 then { s2 with returned := true }
    else sessionLoop u clientAddr logFile s2 rest

/-- The state of a session when the loop is entered (lines 47 to 58):
nothing written or read yet, `printed` is what `createLogFile` printed. -/
def startSession (printed : List GoString) (clientAddr : GoString) : Session :=
  { handed := []
    client := []
    deadlinePassed := false
    logFile := []
    serverLog := printed ++ [lit "Client connected: " ++ clientAddr]
    reads := 0
    returned := false
    closed := false }

/-- The deferred calls of `handleConnection`, run when the loop has
returned: the connection is closed, the disconnection is printed and the
log file is closed. -/
def deferred (clientAddr : GoString) (s : Session) : Session :=
  if s.returned then
    { s with
      serverLog := s.serverLog ++ [lit "Client disconnected: " ++ clientAddr]
      closed := true }
  else s

/-- The function `handleConnection` of `server.go` over the outcomes of its
reads: the log file is opened, the loop runs, and when it returns the
deferred calls close the connection and the log file. -/
def handleConnection (u : Unicode) (openErr : GoString → Option GoString)
    (clientAddr : GoString) (outcomes : List ReadOutcome) : Session :=
  let opened := createLogFile openErr clientAddr
  deferred clientAddr
    (sessionLoop u clientAddr opened.1 (startSession opened.2 clientAddr) outcomes)

/-! ## Words of the specification -/

/-- The command token of a message: the text before its first space. -/
def commandToken (m : GoString) : GoString := m.takeWhile (· ≠ 32)

/-- The answer of the server to a line it has read: `processMessage` on
the trimmed line. -/
def reply (u : Unicode) : ReadOutcome → GoString × Bool
  | .line raw _ clock => processMessage u clock (TrimSpace u raw)
  | _ => ([], false)

/-- The line a received message adds to the log file. -/
def logLine (u : Unicode) : ReadOutcome → GoString
  | .line raw stamp _ => stamp ++ lit ": " ++ TrimSpace u raw ++ lit "\n"
  | _ => []

/-- The elements of a list up to and including the first one with `p`. -/
def upToFirst {α : Type} (p : α → Bool) : List α → List α
  | [] => []
  | a :: as => if p a then [a] else a :: upToFirst p as

/-- Whether the answer to a line asks to close the connection. -/
def closes (u : Unicode) (o : ReadOutcome) : Bool := (reply u o).2

/-- The line written to the client in answer to a line read. -/
def answerLine (u : Unicode) (o : ReadOutcome) : GoString := (reply u o).1 ++ lit "\n"

/-- The messages a session answers: the lines read before the first failed
read, up to and including the first one whose answer asks to close. -/
def served (u : Unicode) (outcomes : List ReadOutcome) : List ReadOutcome :=
  upToFirst (closes u) (outcomes.takeWhile ReadOutcome.isLine)

/-- Whether one of the answered messages asks to close. -/
def terminated (u : Unicode) (outcomes : List ReadOutcome) : Bool :=
  (served u outcomes).any (closes u)

/-! ## Lemmas on the string functions -/

theorem lit_space : lit " " = [32] := rfl

theorem lit_slash : lit "/" = [47] := rfl

theorem lit_empty : lit "" = [] := rfl

theorem HasPrefix_cons_single (c d : Nat) (cs : GoString) :
    HasPrefix (c :: cs) [d] = decide (c = d) := by
  simp [HasPrefix]

theorem HasPrefix_nil_single (d : Nat) : HasPrefix [] [d] = false := by
  simp [HasPrefix]

theorem Index_single_none {s : GoString} {c : Nat} (h : c ∉ s) : Index s [c] = none := by
  induction s with
  | nil => simp [Index]
  | cons x xs ih =>
    simp only [List.mem_cons, not_or] at h
    have hx : ¬ x = c := fun e => h.1 e.symm
    simp [Index, HasPrefix_cons_single, ih h.2, hx]

theorem Index_single_append {t : GoString} {c : Nat} (a : GoString) (h : c ∉ t) :
    Index (t ++ c :: a) [c] = some t.length := by
  induction t with
  | nil => simp [Index, HasPrefix_cons_single]
  | cons x xs ih =>
    simp only [List.mem_cons, not_or] at h
    have hx : ¬ x = c := fun e => h.1 e.symm
    simp [Index, HasPrefix_cons_single, ih h.2, hx]

theorem SplitN_space_of_not_mem {t : GoString} (h : 32 ∉ t) :
    SplitN t (lit " ") 2 = [t] := by
  cases t with
  | nil => simp [SplitN, splitLoop]
  | cons x xs =>
    have hn : min 2 ((x :: xs).length + 1) - 1 = 1 := by simp
    simp only [SplitN, hn, lit_space, splitLoop, Index_single_none h]
    simp

theorem SplitN_space_append {t : GoString} (a : GoString) (h : 32 ∉ t) :
    SplitN (t ++ 32 :: a) (lit " ") 2 = [t, a] := by
  have hn : min 2 ((t ++ 32 :: a).length + 1) - 1 = 1 := by simp; omega
  simp only [SplitN, hn, lit_space, splitLoop, Index_single_append a h]
  simp

theorem commandToken_not_mem (m : GoString) : 32 ∉ commandToken m := by
  intro h
  have := List.mem_takeWhile_imp h
  simp at this

theorem commandToken_cases (m : GoString) :
    (32 ∉ m ∧ commandToken m = m) ∨ ∃ a, m = commandToken m ++ 32 :: a := by
  induction m with
  | nil => left; simp [commandToken]
  | cons x xs ih =>
    by_cases hx : x = 32
    · right; exact ⟨xs, by simp [commandToken, hx]⟩
    · rcases ih with ⟨h1, h2⟩ | ⟨a, ha⟩
      · left
        refine ⟨by simp [h1, Ne.symm hx], ?_⟩
        unfold commandToken at h2 ⊢
        rw [List.takeWhile_cons]
        simp only [ne_eq, hx, not_false_eq_true, decide_True, ite_true]
        exact congrArg (x :: ·) h2
      · right
        refine ⟨a, ?_⟩
        unfold commandToken at ha ⊢
        simp only [List.takeWhile_cons, ne_eq, hx, not_false_eq_true, decide_True, ite_true,
          List.cons_append]
        exact congrArg (x :: ·) ha

theorem SplitN_head (m : GoString) : (SplitN m (lit " ") 2).getD 0 [] = commandToken m := by
  rcases commandToken_cases m with ⟨h1, h2⟩ | ⟨a, ha⟩
  · rw [SplitN_space_of_not_mem h1, h2]; rfl
  · have h := SplitN_space_append a (commandToken_not_mem m)
    rw [← ha] at h
    rw [h]; rfl

theorem ToLower_nil (u : Unicode) : ToLower u [] = [] := rfl

theorem ToLower_slash (u : Unicode) (cs : GoString) :
    ToLower u (47 :: cs) = 47 :: ToLower u cs := by
  simp [ToLower, mapLower, lowerASCII]

theorem HasPrefix_slash (m : GoString) :
    HasPrefix m (lit "/") = decide (m.head? = some 47) := by
  cases m with
  | nil => simp [lit_slash, HasPrefix_nil_single]
  | cons c cs => simp [lit_slash, HasPrefix_cons_single]

theorem ToLower_ne_of_slash (u : Unicode) (m : GoString) (h : m.head? = some 47)
    (w : GoString) (hw : w.head? ≠ some 47) : ToLower u m ≠ w := by
  cases m with
  | nil => simp at h
  | cons c cs =>
    simp only [List.head?_cons, Option.some.injEq] at h
    subst h
    rw [ToLower_slash]
    intro e
    rw [← e] at hw
    simp at hw

/-- The body of `handleCommand` in terms of the command token. -/
theorem handleCommand_token (u : Unicode) (now cmd : GoString) :
    handleCommand u now cmd =
      if ToLower u (commandToken cmd) = lit "/time" then (now, false)
      else if ToLower u (commandToken cmd) = lit "/quit" then (lit "Closing connection", true)
      else if ToLower u (commandToken cmd) = lit "/echo" then
        if (SplitN cmd (lit " ") 2).length > 1 then ((SplitN cmd (lit " ") 2).getD 1 [], false)
        else (lit "Usage: /echo <message>", false)
      else (lit "Unknown command: " ++ ToLower u (commandToken cmd), false) := by
  simp only [handleCommand, SplitN_head]

/-! ## The message protocol: the claims -/

/-- C1. Echo identity: a non-empty message that does not begin with `/` and
whose lower-cased form is neither "hello" nor "bye" is answered by itself,
unchanged, and the session is not terminated; no bound on the length of the
message is involved. -/
theorem processMessage_echo (u : Unicode) (now m : GoString)
    (hne : m ≠ lit "") (hslash : m.head? ≠ some 47)
    (hhello : ToLower u m ≠ lit "hello") (hbye : ToLower u m ≠ lit "bye") :
    processMessage u now m = (m, false) := by
  simp [processMessage, hne, HasPrefix_slash, hslash, hhello, hbye]

/-- Witness of C1, at a message of 1025 bytes, more than `maxMessageSize`. -/
theorem processMessage_echo_witness :
    maxMessageSize < (List.replicate 1025 120).length ∧
    processMessage plainUnicode (lit "now") (List.replicate 1025 120)
      = (List.replicate 1025 120, false) :=
  ⟨by rw [List.length_replicate]; decide,
    processMessage_echo plainUnicode (lit "now") (List.replicate 1025 120)
      (by decide) (by decide) (by decide) (by decide)⟩

/-- C2. Termination is decided by "bye" and "/quit": the flag is true exactly
when the message does not begin with `/` and lower-cases to "bye", or begins
with `/` and its command token lower-cases to "/quit". -/
theorem processMessage_terminate_iff (u : Unicode) (now m : GoString) :
    ((processMessage u now m).2 = true ↔
      (m.head? ≠ some 47 ∧ ToLower u m = lit "bye") ∨
      (m.head? = some 47 ∧ ToLower u (commandToken m) = lit "/quit")) ∧
    (processMessage u now (lit "bye")).2 = true ∧
    (processMessage u now (lit "BYE")).2 = true ∧
    (processMessage u now (lit "/quit")).2 = true ∧
    (processMessage u now (lit "/QUIT now")).2 = true ∧
    (processMessage u now (lit "")).2 = false ∧
    (processMessage u now (lit "hello")).2 = false ∧
    (processMessage u now (lit "/time")).2 = false ∧
    (processMessage u now (lit "/echo bye")).2 = false ∧
    (processMessage u now (lit "/bogus")).2 = false ∧
    (processMessage u now (lit "good bye")).2 = false := by
  refine ⟨?_, rfl, rfl, rfl, rfl, rfl, rfl, rfl, rfl, rfl, rfl⟩
  unfold processMessage
  by_cases hne : m = lit ""
  · subst hne
    simp [lit_empty, ToLower_nil]
    decide
  · by_cases hs : m.head? = some 47
    · have hq : lit "/time" ≠ lit "/quit" := by decide
      simp only [hne, HasPrefix_slash, hs, decide_True, ite_true, ite_false,
        handleCommand_token]
      split_ifs with h1 h2 h3 h4 <;> simp_all
    · simp only [hne, HasPrefix_slash, hs, decide_False, ite_false]
      have hq : lit "hello" ≠ lit "bye" := by decide
      split_ifs with h1 h2 <;> simp_all

/-- C8. The hello keyword is case-insensitive: every message whose
lower-cased form is "hello" gets the greeting, and the session stays open. -/
theorem processMessage_hello (u : Unicode) (now m : GoString)
    (h : ToLower u m = lit "hello") :
    processMessage u now m = (lit "Hello Wor.... i mean Hello there!", false) := by
  have hne : m ≠ lit "" := by
    intro e
    rw [e, lit_empty, ToLower_nil] at h
    exact absurd h (by decide)
  have hs : m.head? ≠ some 47 := fun e =>
    ToLower_ne_of_slash u m e (lit "hello") (by decide) h
  simp [processMessage, hne, HasPrefix_slash, hs, h]

/-- Witness of C8, at "hElLo". -/
theorem processMessage_hello_witness :
    processMessage plainUnicode (lit "now") (lit "hElLo")
      = (lit "Hello Wor.... i mean Hello there!", false) :=
  processMessage_hello plainUnicode (lit "now") (lit "hElLo") (by decide)

theorem head_append_space (t a : GoString) (h : t.head? = some 47) :
    (t ++ lit " " ++ a).head? = some 47 := by
  cases t with
  | nil => simp at h
  | cons c cs => simpa using h

theorem commandToken_append (t a : GoString) (h : 32 ∉ t) :
    commandToken (t ++ lit " " ++ a) = t := by
  have e := SplitN_head (t ++ lit " " ++ a)
  rw [lit_space] at e
  simp only [List.append_assoc, List.singleton_append] at e
  rw [← lit_space, SplitN_space_append a h] at e
  simpa [lit_space] using e.symm

theorem commandToken_self (t : GoString) (h : 32 ∉ t) : commandToken t = t := by
  have e := SplitN_head t
  rw [SplitN_space_of_not_mem h] at e
  exact e.symm

/-- C5. The `/echo` command: for a command token `t` (it begins with `/` and
holds no space) whose lower-cased form is "/echo", the message `t`, a space
and an argument `a` is answered by `a` as it stands, and `t` alone by the
usage line; neither terminates the session.  (The argument may be empty.) -/
theorem processMessage_echo_command (u : Unicode) (now t a : GoString)
    (hslash : t.head? = some 47) (hspace : 32 ∉ t) (hlow : ToLower u t = lit "/echo") :
    processMessage u now (t ++ lit " " ++ a) = (a, false) ∧
    processMessage u now t = (lit "Usage: /echo <message>", false) := by
  have h1 : lit "/echo" ≠ lit "/time" := by decide
  have h2 : lit "/echo" ≠ lit "/quit" := by decide
  constructor
  · have hne : t ++ lit " " ++ a ≠ lit "" := by simp [lit_space, lit_empty]
    have hs := head_append_space t a hslash
    have hsplit : SplitN (t ++ lit " " ++ a) (lit " ") 2 = [t, a] := by
      have := SplitN_space_append a hspace
      simpa [lit_space] using this
    simp only [processMessage, hne, HasPrefix_slash, hs, handleCommand_token,
      commandToken_append t a hspace, hlow, h1, h2, hsplit, decide_True, ite_true, ite_false]
    simp
  · have hne : t ≠ lit "" := by
      intro e
      rw [e] at hslash
      simp [lit_empty] at hslash
    simp [processMessage, hne, HasPrefix_slash, hslash, handleCommand_token,
      commandToken_self t hspace, hlow, h1, h2, SplitN_space_of_not_mem hspace]

/-- Witness of C5, at the token "/ECHO" and the argument "Hi  There". -/
theorem processMessage_echo_command_witness :
    processMessage plainUnicode (lit "now") (lit "/ECHO" ++ lit " " ++ lit "Hi  There")
      = (lit "Hi  There", false) ∧
    processMessage plainUnicode (lit "now") (lit "/ECHO")
      = (lit "Usage: /echo <message>", false) :=
  processMessage_echo_command plainUnicode (lit "now") (lit "/ECHO") (lit "Hi  There")
    (by decide) (by decide) (by decide)

/-- Examples of C5 from the specification, for every Unicode table and clock. -/
theorem processMessage_echo_examples (u : Unicode) (now : GoString) :
    processMessage u now (lit "/echo hi there") = (lit "hi there", false) ∧
    processMessage u now (lit "/Echo test123") = (lit "test123", false) ∧
    processMessage u now (lit "/echo") = (lit "Usage: /echo <message>", false) :=
  ⟨rfl, rfl, rfl⟩

/-- C6. Unknown commands: a message that begins with `/` and whose command
token lower-cases to none of "/time", "/quit", "/echo" is answered by
"Unknown command: " and the lower-cased token, without the argument, and
the session is not terminated. -/
theorem processMessage_unknown_command (u : Unicode) (now m : GoString)
    (hslash : m.head? = some 47)
    (htime : ToLower u (commandToken m) ≠ lit "/time")
    (hquit : ToLower u (commandToken m) ≠ lit "/quit")
    (hecho : ToLower u (commandToken m) ≠ lit "/echo") :
    processMessage u now m = (lit "Unknown command: " ++ ToLower u (commandToken m), false) := by
  have hne : m ≠ lit "" := by
    intro e
    rw [e] at hslash
    simp [lit_empty] at hslash
  simp [processMessage, hne, HasPrefix_slash, hslash, handleCommand_token, htime, hquit, hecho]

/-- Witness of C6, at "/Bogus x y". -/
theorem processMessage_unknown_command_witness :
    processMessage plainUnicode (lit "now") (lit "/Bogus x y")
      = (lit "Unknown command: /bogus", false) :=
  processMessage_unknown_command plainUnicode (lit "now") (lit "/Bogus x y")
    (by decide) (by decide) (by decide) (by decide)

/-- Examples of C6 from the specification, for every Unicode table and clock. -/
theorem processMessage_unknown_examples (u : Unicode) (now : GoString) :
    processMessage u now (lit "/bogus") = (lit "Unknown command: /bogus", false) ∧
    processMessage u now (lit "/BOGUS") = (lit "Unknown command: /bogus", false) ∧
    processMessage u now (lit "/hello") = (lit "Unknown command: /hello", false) ∧
    processMessage u now (lit "/bye") = (lit "Unknown command: /bye", false) :=
  ⟨rfl, rfl, rfl, rfl⟩

/-- C9, as the claim states it, fails: "/echo", a tab and "hi" is not the
`/echo` command with argument "hi"; the tab stays in the command token and
the message is an unknown command. -/
theorem handleCommand_tab_counterexample :
    handleCommand plainUnicode (lit "now") (lit "/echo\thi") ≠ (lit "hi", false) ∧
    handleCommand plainUnicode (lit "now") (lit "/echo\thi")
      = (lit "Unknown command: /echo\thi", false) := by
  decide

/-- C9, amended. Command parsing splits on the first space (byte 32) and on
no other white space: for a token `t` without a space, the message `t`, a
space and `a` is cut into `t` and `a` and answered according to the
lower-cased `t` with argument `a`; `t` alone is cut into `t` only. -/
theorem handleCommand_splits_on_first_space (u : Unicode) (now t a : GoString)
    (hspace : 32 ∉ t) :
    SplitN (t ++ lit " " ++ a) (lit " ") 2 = [t, a] ∧
    SplitN t (lit " ") 2 = [t] ∧
    handleCommand u now (t ++ lit " " ++ a) =
      (if ToLower u t = lit "/time" then (now, false)
       else if ToLower u t = lit "/quit" then (lit "Closing connection", true)
       else if ToLower u t = lit "/echo" then (a, false)
       else (lit "Unknown command: " ++ ToLower u t, false)) ∧
    handleCommand u now t =
      (if ToLower u t = lit "/time" then (now, false)
       else if ToLower u t = lit "/quit" then (lit "Closing connection", true)
       else if ToLower u t = lit "/echo" then (lit "Usage: /echo <message>", false)
       else (lit "Unknown command: " ++ ToLower u t, false)) := by
  have hsplit : SplitN (t ++ lit " " ++ a) (lit " ") 2 = [t, a] := by
    have := SplitN_space_append a hspace
    simpa [lit_space] using this
  refine ⟨hsplit, SplitN_space_of_not_mem hspace, ?_, ?_⟩
  · rw [handleCommand_token, commandToken_append t a hspace, hsplit]
    simp
  · rw [handleCommand_token, commandToken_self t hspace, SplitN_space_of_not_mem hspace]
    simp

/-- Witness of C9 amended, at the token "/echo" and an argument that holds
a tab and a space. -/
theorem handleCommand_splits_on_first_space_witness :
    SplitN (lit "/echo" ++ lit " " ++ lit "a\tb c") (lit " ") 2
      = [lit "/echo", lit "a\tb c"] ∧
    handleCommand plainUnicode (lit "now") (lit "/echo" ++ lit " " ++ lit "a\tb c")
      = (lit "a\tb c", false) := by
  have h := handleCommand_splits_on_first_space plainUnicode (lit "now") (lit "/echo")
    (lit "a\tb c") (by decide)
  exact ⟨h.1, h.2.2.1.trans (by decide)⟩

/-- The slice `SplitN` gives `handleCommand` is never empty: `parts[0]`
exists, and `parts[1]` exists exactly when the message holds a space. -/
theorem SplitN_two_cases (m : GoString) :
    (32 ∉ m ∧ SplitN m (lit " ") 2 = [m]) ∨
    ∃ a, m = commandToken m ++ 32 :: a ∧ SplitN m (lit " ") 2 = [commandToken m, a] := by
  rcases commandToken_cases m with ⟨h1, _⟩ | ⟨a, ha⟩
  · exact Or.inl ⟨h1, SplitN_space_of_not_mem h1⟩
  · refine Or.inr ⟨a, ha, ?_⟩
    have h := SplitN_space_append a (commandToken_not_mem m)
    rwa [← ha] at h

/-- On a string of ASCII bytes `ToLower` lower-cases byte by byte, whatever
the Unicode tables are. -/
theorem ToLower_ascii (u : Unicode) (t : GoString) (h : ∀ c ∈ t, c < 128) :
    ToLower u t = t.map lowerASCII := by
  unfold ToLower
  induction t with
  | nil => rfl
  | cons c cs ih =>
    have hc : c < 128 := h c (List.mem_cons_self c cs)
    have hcs : ∀ x ∈ cs, x < 128 := fun x hx => h x (List.mem_cons_of_mem c hx)
    simp [mapLower, hc, ih hcs]

/-- For a token of ASCII bytes the two conditions of C5 on the token follow
from its lower-cased form: it begins with `/` and holds no space. -/
theorem echo_token_of_ascii (u : Unicode) (t : GoString) (h : ∀ c ∈ t, c < 128)
    (hlow : ToLower u t = lit "/echo") : t.head? = some 47 ∧ 32 ∉ t := by
  rw [ToLower_ascii u t h] at hlow
  constructor
  · cases t with
    | nil => exact absurd hlow (by decide)
    | cons c cs =>
      have hc : lowerASCII c = 47 := by
        have := congrArg List.head? hlow
        simpa [lit] using this
      unfold lowerASCII at hc
      split_ifs at hc with h1
      · omega
      · simp [hc]
  · intro hmem
    have : lowerASCII 32 ∈ t.map lowerASCII := List.mem_map_of_mem lowerASCII hmem
    rw [hlow] at this
    exact absurd this (by decide)

/-! ## The session loop: lemmas -/

theorem served_nil (u : Unicode) : served u [] = [] := rfl

theorem served_cons_line (u : Unicode) (raw stamp clock : GoString) (rest : List ReadOutcome) :
    served u (.line raw stamp clock :: rest) =
      if closes u (.line raw stamp clock) then [.line raw stamp clock]
      else .line raw stamp clock :: served u rest := by
  simp [served, upToFirst, ReadOutcome.isLine]

theorem served_cons_failure (u : Unicode) (o : ReadOutcome) (rest : List ReadOutcome)
    (h : o.isLine = false) : served u (o :: rest) = [] := by
  simp [served, upToFirst, h]

/-- One turn of the loop on a line whose answer does not ask to close. -/
theorem sessionLoop_line_open (u : Unicode) (addr : GoString) (lf : Option GoString)
    (s : Session) (raw stamp clock : GoString) (rest : List ReadOutcome)
    (hc : closes u (.line raw stamp clock) = false) :
    sessionLoop u addr lf s (.line raw stamp clock :: rest) =
      sessionLoop u addr lf (sessionLoop u addr lf s [.line raw stamp clock]) rest ∧
    (sessionLoop u addr lf s [.line raw stamp clock]).handed =
      s.handed ++ [answerLine u (.line raw stamp clock)] ∧
    (sessionLoop u addr lf s [.line raw stamp clock]).client =
      s.client ++ [answerLine u (.line raw stamp clock)] ∧
    (sessionLoop u addr lf s [.line raw stamp clock]).logFile =
      s.logFile ++ (if lf.isSome then [logLine u (.line raw stamp clock)] else []) ∧
    (sessionLoop u addr lf s [.line raw stamp clock]).reads = s.reads + 1 ∧
    (sessionLoop u addr lf s [.line raw stamp clock]).returned = s.returned ∧
    (sessionLoop u addr lf s [.line raw stamp clock]).closed = s.closed := by
  have hc2 : (processMessage u clock (TrimSpace u raw)).2 = false := hc
  refine ⟨?_, ?_, ?_, ?_, ?_, ?_, ?_⟩
  · simp only [sessionLoop, hc2, Bool.false_eq_true, ite_false]
  · simp [sessionLoop, hc2, writeFlush, answerLine, reply]
  · simp [sessionLoop, hc2, writeFlush, answerLine, reply]
  · cases lf <;> simp [sessionLoop, hc2, writeFlush, logLine]
  · simp [sessionLoop, hc2, writeFlush]
  · simp [sessionLoop, hc2, writeFlush]
  · simp [sessionLoop, hc2, writeFlush]

/-- One turn of the loop on a line whose answer asks to close. -/
theorem sessionLoop_line_close (u : Unicode) (addr : GoString) (lf : Option GoString)
    (s : Session) (raw stamp clock : GoString) (rest : List ReadOutcome)
    (hc : closes u (.line raw stamp clock) = true) :
    sessionLoop u addr lf s (.line raw stamp clock :: rest) =
      sessionLoop u addr lf s [.line raw stamp clock] ∧
    (sessionLoop u addr lf s [.line raw stamp clock]).handed =
      s.handed ++ [answerLine u (.line raw stamp clock)] ∧
    (sessionLoop u addr lf s [.line raw stamp clock]).client =
      s.client ++ [answerLine u (.line raw stamp clock)] ∧
    (sessionLoop u addr lf s [.line raw stamp clock]).logFile =
      s.logFile ++ (if lf.isSome then [logLine u (.line raw stamp clock)] else []) ∧
    (sessionLoop u addr lf s [.line raw stamp clock]).reads = s.reads + 1 ∧
    (sessionLoop u addr lf s [.line raw stamp clock]).returned = true ∧
    (sessionLoop u addr lf s [.line raw stamp clock]).closed = s.closed := by
  have hc2 : (processMessage u clock (TrimSpace u raw)).2 = true := hc
  refine ⟨?_, ?_, ?_, ?_, ?_, ?_, ?_⟩
  · simp only [sessionLoop, hc2, ite_true]
  · simp [sessionLoop, hc2, writeFlush, answerLine, reply]
  · simp [sessionLoop, hc2, writeFlush, answerLine, reply]
  · cases lf <;> simp [sessionLoop, hc2, writeFlush, logLine]
  · simp [sessionLoop, hc2, writeFlush]
  · simp [sessionLoop, hc2, writeFlush]
  · simp [sessionLoop, hc2, writeFlush]

/-- A failed read ends the loop whatever would come after it; the notice
of a time-out is handed to the writer and does not reach the client. -/
theorem sessionLoop_failure (u : Unicode) (addr : GoString) (lf : Option GoString)
    (s : Session) (f : ReadOutcome) (rest : List ReadOutcome) (hf : f.isLine = false) :
    sessionLoop u addr lf s (f :: rest) = sessionLoop u addr lf s [f] ∧
    (sessionLoop u addr lf s (f :: rest)).handed =
      s.handed ++ (if f = ReadOutcome.timeout then [timeoutNotice] else []) ∧
    (sessionLoop u addr lf s (f :: rest)).client = s.client ∧
    (sessionLoop u addr lf s (f :: rest)).logFile = s.logFile ∧
    (sessionLoop u addr lf s (f :: rest)).reads = s.reads + 1 ∧
    (sessionLoop u addr lf s (f :: rest)).returned = true ∧
    (sessionLoop u addr lf s (f :: rest)).closed = s.closed := by
  cases f with
  | line raw stamp clock => simp [ReadOutcome.isLine] at hf
  | eof => simp [sessionLoop]
  | timeout => simp [sessionLoop, writeFlush]
  | otherError text => simp [sessionLoop]

/-- The loop from any state, in terms of the answered messages. -/
theorem sessionLoop_spec (u : Unicode) (addr : GoString) (lf : Option GoString) :
    ∀ (outcomes : List ReadOutcome) (s : Session),
    (sessionLoop u addr lf s outcomes).handed =
      s.handed ++ ((served u outcomes).map (answerLine u) ++
        (if terminated u outcomes = false ∧
            outcomes[(served u outcomes).length]? = some ReadOutcome.timeout
         then [timeoutNotice] else [])) ∧
    (sessionLoop u addr lf s outcomes).client =
      s.client ++ (served u outcomes).map (answerLine u) ∧
    (sessionLoop u addr lf s outcomes).logFile =
      s.logFile ++ (if lf.isSome then (served u outcomes).map (logLine u) else []) ∧
    (sessionLoop u addr lf s outcomes).reads =
      s.reads + (if terminated u outcomes then (served u outcomes).length
        else min outcomes.length ((served u outcomes).length + 1)) ∧
    (sessionLoop u addr lf s outcomes).returned =
      (s.returned || terminated u outcomes ||
        decide ((served u outcomes).length < outcomes.length)) ∧
    (sessionLoop u addr lf s outcomes).closed = s.closed := by
  intro outcomes
  induction outcomes with
  | nil =>
    intro s
    simp [sessionLoop, served_nil, terminated]
  | cons o rest ih =>
    intro s
    by_cases hl : o.isLine = true
    · cases o with
      | eof => simp [ReadOutcome.isLine] at hl
      | timeout => simp [ReadOutcome.isLine] at hl
      | otherError text => simp [ReadOutcome.isLine] at hl
      | line raw stamp clock =>
        by_cases hc : closes u (.line raw stamp clock) = true
        · obtain ⟨e, c1, c2, c3, c4, c5, c6⟩ :=
            sessionLoop_line_close u addr lf s raw stamp clock rest hc
          rw [e, c1, c2, c3, c4, c5, c6]
          simp only [terminated, served_cons_line, hc, ite_true]
          cases lf <;> simp [hc]
        · have hc1 : closes u (.line raw stamp clock) = false := by simpa using hc
          obtain ⟨e, c1, c2, c3, c4, c5, c6⟩ :=
            sessionLoop_line_open u addr lf s raw stamp clock rest hc1
          obtain ⟨h1, h2, h3, h4, h5, h6⟩ :=
            ih (sessionLoop u addr lf s [.line raw stamp clock])
          rw [e, h1, h2, h3, h4, h5, h6, c1, c2, c3, c4, c5, c6]
          simp only [terminated, served_cons_line, hc1, Bool.false_eq_true, ite_false,
            List.any_cons, Bool.false_or, List.length_cons, List.map_cons]
          refine ⟨?_, ?_, ?_, ?_, ?_, trivial⟩
          · simp
          · simp
          · cases lf <;> simp
          · split_ifs <;> omega
          · simp
    · have hf : o.isLine = false := by simpa using hl
      obtain ⟨_, f1, f2, f3, f4, f5, f6⟩ := sessionLoop_failure u addr lf s o rest hf
      rw [f1, f2, f3, f4, f5, f6]
      simp only [terminated, served_cons_failure u o rest hf]
      simp

/-- Once a message asks to close, the outcomes after it play no part. -/
theorem sessionLoop_take (u : Unicode) (addr : GoString) (lf : Option GoString) :
    ∀ (outcomes : List ReadOutcome) (s : Session), terminated u outcomes = true →
    sessionLoop u addr lf s outcomes =
      sessionLoop u addr lf s (outcomes.take (served u outcomes).length) := by
  intro outcomes
  induction outcomes with
  | nil => intro s _; rfl
  | cons o rest ih =>
    intro s ht
    cases o with
    | eof => simp [terminated, served_cons_failure, ReadOutcome.isLine] at ht
    | timeout => simp [terminated, served_cons_failure, ReadOutcome.isLine] at ht
    | otherError text => simp [terminated, served_cons_failure, ReadOutcome.isLine] at ht
    | line raw stamp clock =>
      by_cases hc : closes u (.line raw stamp clock) = true
      · rw [(sessionLoop_line_close u addr lf s raw stamp clock rest hc).1]
        simp [served_cons_line, hc]
      · have hc1 : closes u (.line raw stamp clock) = false := by simpa using hc
        have ht2 : terminated u rest = true := by
          simpa [terminated, served_cons_line, hc1] using ht
        rw [(sessionLoop_line_open u addr lf s raw stamp clock rest hc1).1]
        simp only [served_cons_line, hc1, Bool.false_eq_true, ite_false, List.length_cons,
          List.take_succ_cons]
        rw [(sessionLoop_line_open u addr lf s raw stamp clock
          (List.take (served u rest).length rest) hc1).1]
        exact ih _ ht2

/-- Lines that do not ask to close are handled one after the other. -/
theorem sessionLoop_append (u : Unicode) (addr : GoString) (lf : Option GoString) :
    ∀ (pre : List ReadOutcome) (s : Session) (tail : List ReadOutcome),
    (∀ o ∈ pre, o.isLine = true ∧ closes u o = false) →
    sessionLoop u addr lf s (pre ++ tail) =
      sessionLoop u addr lf (sessionLoop u addr lf s pre) tail := by
  intro pre
  induction pre with
  | nil => intro s tail _; rfl
  | cons o rest ih =>
    intro s tail h
    have ho := h o (List.mem_cons_self o rest)
    have hrest : ∀ o ∈ rest, o.isLine = true ∧ closes u o = false :=
      fun x hx => h x (List.mem_cons_of_mem o hx)
    cases o with
    | eof => simp [ReadOutcome.isLine] at ho
    | timeout => simp [ReadOutcome.isLine] at ho
    | otherError text => simp [ReadOutcome.isLine] at ho
    | line raw stamp clock =>
      rw [List.cons_append,
        (sessionLoop_line_open u addr lf s raw stamp clock (rest ++ tail) ho.2).1,
        (sessionLoop_line_open u addr lf s raw stamp clock rest ho.2).1]
      exact ih _ tail hrest

/-- The state after lines that do not ask to close. -/
theorem sessionLoop_lines (u : Unicode) (addr : GoString) (lf : Option GoString) :
    ∀ (pre : List ReadOutcome) (s : Session),
    (∀ o ∈ pre, o.isLine = true ∧ closes u o = false) →
    (sessionLoop u addr lf s pre).handed = s.handed ++ pre.map (answerLine u) ∧
    (sessionLoop u addr lf s pre).client = s.client ++ pre.map (answerLine u) ∧
    (sessionLoop u addr lf s pre).logFile =
      s.logFile ++ (if lf.isSome then pre.map (logLine u) else []) ∧
    (sessionLoop u addr lf s pre).reads = s.reads + pre.length ∧
    (sessionLoop u addr lf s pre).returned = s.returned ∧
    (sessionLoop u addr lf s pre).closed = s.closed := by
  intro pre
  induction pre with
  | nil => intro s _; simp [sessionLoop]
  | cons o rest ih =>
    intro s h
    have ho := h o (List.mem_cons_self o rest)
    have hrest : ∀ o ∈ rest, o.isLine = true ∧ closes u o = false :=
      fun x hx => h x (List.mem_cons_of_mem o hx)
    cases o with
    | eof => simp [ReadOutcome.isLine] at ho
    | timeout => simp [ReadOutcome.isLine] at ho
    | otherError text => simp [ReadOutcome.isLine] at ho
    | line raw stamp clock =>
      obtain ⟨e, c1, c2, c3, c4, c5, c6⟩ :=
        sessionLoop_line_open u addr lf s raw stamp clock rest ho.2
      obtain ⟨h1, h2, h3, h4, h5, h6⟩ :=
        ih (sessionLoop u addr lf s [.line raw stamp clock]) hrest
      rw [e, h1, h2, h3, h4, h5, h6, c1, c2, c3, c4, c5, c6]
      refine ⟨by simp, by simp, ?_, ?_, rfl, rfl⟩
      · cases lf <;> simp
      · simp only [List.length_cons]; omega

theorem deferred_handed (addr : GoString) (s : Session) :
    (deferred addr s).handed = s.handed := by
  unfold deferred; split <;> rfl

theorem deferred_client (addr : GoString) (s : Session) :
    (deferred addr s).client = s.client := by
  unfold deferred; split <;> rfl

theorem deferred_logFile (addr : GoString) (s : Session) :
    (deferred addr s).logFile = s.logFile := by
  unfold deferred; split <;> rfl

theorem deferred_reads (addr : GoString) (s : Session) :
    (deferred addr s).reads = s.reads := by
  unfold deferred; split <;> rfl

theorem deferred_returned (addr : GoString) (s : Session) :
    (deferred addr s).returned = s.returned := by
  unfold deferred; split <;> rfl

theorem deferred_closed (addr : GoString) (s : Session) (h : s.returned = true) :
    (deferred addr s).closed = true := by
  unfold deferred; simp [h]

/-! ## The session loop: the claims -/

/-- C3. Session trace: for every sequence of read outcomes, what reaches
the client is the answers to the trimmed messages, one line each in the
order of receipt, up to and including the first message that asks to close,
and nothing else; what is handed to the writer is these answers (followed
by the time-out notice when no message asked to close and the next read
timed out); the log file gets one line for each of these messages and no
other; and once a message has asked to close the loop has returned after
that many reads, so that the outcomes after it play no part at all. -/
theorem handleConnection_trace (u : Unicode) (openErr : GoString → Option GoString)
    (addr : GoString) (outcomes : List ReadOutcome) :
    (handleConnection u openErr addr outcomes).client =
      (served u outcomes).map (answerLine u) ∧
    (handleConnection u openErr addr outcomes).handed =
      (served u outcomes).map (answerLine u) ++
        (if terminated u outcomes = false ∧
            outcomes[(served u outcomes).length]? = some ReadOutcome.timeout
         then [timeoutNotice] else []) ∧
    (handleConnection u openErr addr outcomes).logFile =
      (if (createLogFile openErr addr).1.isSome then (served u outcomes).map (logLine u)
       else []) ∧
    (handleConnection u openErr addr outcomes).reads =
      (if terminated u outcomes then (served u outcomes).length
       else min outcomes.length ((served u outcomes).length + 1)) ∧
    (terminated u outcomes = true →
      (handleConnection u openErr addr outcomes).returned = true ∧
      (handleConnection u openErr addr outcomes).handed =
        (served u outcomes).map (answerLine u) ∧
      handleConnection u openErr addr outcomes =
        handleConnection u openErr addr (outcomes.take (served u outcomes).length)) := by
  obtain ⟨k0, k1, k2, k3, k4, _⟩ := sessionLoop_spec u addr (createLogFile openErr addr).1
    outcomes (startSession (createLogFile openErr addr).2 addr)
  have e0 : (startSession (createLogFile openErr addr).2 addr).handed = [] := rfl
  have e1 : (startSession (createLogFile openErr addr).2 addr).client = [] := rfl
  have e2 : (startSession (createLogFile openErr addr).2 addr).logFile = [] := rfl
  have e3 : (startSession (createLogFile openErr addr).2 addr).reads = 0 := rfl
  have e4 : (startSession (createLogFile openErr addr).2 addr).returned = false := rfl
  rw [e0, List.nil_append] at k0
  rw [e1, List.nil_append] at k1
  rw [e2, List.nil_append] at k2
  rw [e3, Nat.zero_add] at k3
  rw [e4, Bool.false_or] at k4
  simp only [handleConnection, deferred_handed, deferred_client, deferred_logFile,
    deferred_reads, deferred_returned]
  refine ⟨k1, k0, k2, k3, ?_⟩
  intro ht
  refine ⟨by rw [k4, ht]; rfl, by rw [k0, ht]; simp, ?_⟩
  rw [sessionLoop_take u addr (createLogFile openErr addr).1 outcomes _ ht]

/-- An example of C3: after "hello" and "/QUIT now" the loop has returned;
the line "more" and the time-out after it are never read. -/
theorem handleConnection_trace_example :
    (handleConnection plainUnicode (fun _ => none) (lit "127.0.0.1:5000")
      [.line (lit " hello\r\n") (lit "T1") (lit "N1"),
       .line (lit "/QUIT now\n") (lit "T2") (lit "N2"),
       .line (lit "more\n") (lit "T3") (lit "N3"),
       .timeout]) =
    { handed := [lit "Hello Wor.... i mean Hello there!\n", lit "Closing connection\n"]
      client := [lit "Hello Wor.... i mean Hello there!\n", lit "Closing connection\n"]
      deadlinePassed := false
      logFile := [lit "T1: hello\n", lit "T2: /QUIT now\n"]
      serverLog :=
        [lit "Client connected: 127.0.0.1:5000",
         lit "Received from 127.0.0.1:5000: hello",
         lit "Received from 127.0.0.1:5000: /QUIT now",
         lit "Client disconnected: 127.0.0.1:5000"]
      reads := 2
      returned := true
      closed := true } := by
  decide

/-- Read failures in general: after any lines that did not ask to close, a
read that fails ends the session whatever would come after it: one read
more has been made and no later one, the log file has no line for it, and
nothing more reaches the client.  For the end of the stream and for another
error nothing is handed to the writer either; for a time-out the notice is
handed to the writer, and the flush fails because the deadline has passed. -/
theorem handleConnection_read_failure (u : Unicode) (openErr : GoString → Option GoString)
    (addr : GoString) (pre : List ReadOutcome) (f : ReadOutcome) (rest : List ReadOutcome)
    (hpre : ∀ o ∈ pre, o.isLine = true ∧ closes u o = false) (hf : f.isLine = false) :
    (handleConnection u openErr addr (pre ++ f :: rest)).handed =
      pre.map (answerLine u) ++ (if f = ReadOutcome.timeout then [timeoutNotice] else []) ∧
    (handleConnection u openErr addr (pre ++ f :: rest)).client = pre.map (answerLine u) ∧
    (handleConnection u openErr addr (pre ++ f :: rest)).logFile =
      (if (createLogFile openErr addr).1.isSome then pre.map (logLine u) else []) ∧
    (handleConnection u openErr addr (pre ++ f :: rest)).reads = pre.length + 1 ∧
    (handleConnection u openErr addr (pre ++ f :: rest)).returned = true ∧
    (handleConnection u openErr addr (pre ++ f :: rest)).closed = true ∧
    handleConnection u openErr addr (pre ++ f :: rest) =
      handleConnection u openErr addr (pre ++ [f]) := by
  have happ := fun tail => sessionLoop_append u addr (createLogFile openErr addr).1 pre
    (startSession (createLogFile openErr addr).2 addr) tail hpre
  obtain ⟨l0, l1, l2, l3, _, _⟩ := sessionLoop_lines u addr (createLogFile openErr addr).1 pre
    (startSession (createLogFile openErr addr).2 addr) hpre
  obtain ⟨f0, fh, f1, f2, f3, f4, _⟩ := sessionLoop_failure u addr
    (createLogFile openErr addr).1
    (sessionLoop u addr (createLogFile openErr addr).1
      (startSession (createLogFile openErr addr).2 addr) pre) f rest hf
  have e0 : (startSession (createLogFile openErr addr).2 addr).handed = [] := rfl
  have e1 : (startSession (createLogFile openErr addr).2 addr).client = [] := rfl
  have e2 : (startSession (createLogFile openErr addr).2 addr).logFile = [] := rfl
  have e3 : (startSession (createLogFile openErr addr).2 addr).reads = 0 := rfl
  rw [e0, List.nil_append] at l0
  rw [e1, List.nil_append] at l1
  rw [e2, List.nil_append] at l2
  rw [e3, Nat.zero_add] at l3
  simp only [handleConnection, deferred_handed, deferred_client, deferred_logFile,
    deferred_reads, deferred_returned, happ]
  refine ⟨by rw [fh, l0], by rw [f1, l1], by rw [f2, l2], by rw [f3, l3], f4,
    deferred_closed _ _ f4, ?_⟩
  rw [f0]

/-- An example of read failures: a time-out after "hi", with a line after it
that is never read. -/
theorem handleConnection_read_failure_example :
    (handleConnection plainUnicode (fun _ => none) (lit "10.0.0.7:81")
      ([.line (lit "hi\n") (lit "T1") (lit "N1")] ++
        .timeout :: [.line (lit "late\n") (lit "T2") (lit "N2")])).client
      = [lit "hi\n"] ∧
    (handleConnection plainUnicode (fun _ => none) (lit "10.0.0.7:81")
      ([.line (lit "hi\n") (lit "T1") (lit "N1")] ++
        .timeout :: [.line (lit "late\n") (lit "T2") (lit "N2")])).logFile
      = [lit "T1: hi\n"] ∧
    (handleConnection plainUnicode (fun _ => none) (lit "10.0.0.7:81")
      ([.line (lit "hi\n") (lit "T1") (lit "N1")] ++
        .timeout :: [.line (lit "late\n") (lit "T2") (lit "N2")])).reads = 2 := by
  have h := handleConnection_read_failure plainUnicode (fun _ => none) (lit "10.0.0.7:81")
    [.line (lit "hi\n") (lit "T1") (lit "N1")] .timeout
    [.line (lit "late\n") (lit "T2") (lit "N2")] (by decide) (by decide)
  exact ⟨h.2.1.trans (by decide), h.2.2.1.trans (by decide), h.2.2.2.1⟩

/-- Examples of read failures: the end of the stream and another error
hand nothing to the writer, and no later outcome is read. -/
theorem handleConnection_failure_examples :
    (handleConnection plainUnicode (fun _ => none) (lit "10.0.0.7:81")
      [.eof, .line (lit "late\n") (lit "T") (lit "N")]).handed = [] ∧
    (handleConnection plainUnicode (fun _ => none) (lit "10.0.0.7:81")
      [.eof, .line (lit "late\n") (lit "T") (lit "N")]).reads = 1 ∧
    (handleConnection plainUnicode (fun _ => none) (lit "10.0.0.7:81")
      [.otherError (lit "connection reset by peer"), .timeout]).handed = [] ∧
    (handleConnection plainUnicode (fun _ => none) (lit "10.0.0.7:81")
      [.otherError (lit "connection reset by peer"), .timeout]).reads = 1 := by
  decide

/-- C4. Read failures, where the code departs from the claim: a client
connects and sends nothing, so that the first read times out.  The loop
hands the line "Connection timed out due to inactivity" to the writer, makes
no further read, adds no line to the log file and returns, as the claim
says; but the deadline of line 61 is the deadline of writes too and has
passed, the flush of line 70 fails, and no line reaches the client. -/
theorem handleConnection_timeout_notice_lost :
    (handleConnection plainUnicode (fun _ => none) (lit "10.0.0.7:81") [.timeout]).handed
      = [lit "Connection timed out due to inactivity\n"] ∧
    (handleConnection plainUnicode (fun _ => none) (lit "10.0.0.7:81") [.timeout]).client
      = [] ∧
    (handleConnection plainUnicode (fun _ => none) (lit "10.0.0.7:81") [.timeout]).logFile
      = [] ∧
    (handleConnection plainUnicode (fun _ => none) (lit "10.0.0.7:81") [.timeout]).reads
      = 1 ∧
    (handleConnection plainUnicode (fun _ => none) (lit "10.0.0.7:81") [.timeout]).returned
      = true ∧
    (handleConnection plainUnicode (fun _ => none) (lit "10.0.0.7:81") [.timeout]).closed
      = true := by
  decide

/-! ## Empty input -/

/-- A string of ASCII white space only is trimmed to the empty string. -/
theorem TrimSpace_of_asciiSpace (u : Unicode) (m : GoString)
    (h : ∀ c ∈ m, asciiSpace c = true) : TrimSpace u m = lit "" := by
  have hd : m.dropWhile asciiSpace = [] := by
    rw [List.dropWhile_eq_nil_iff]
    exact h
  simp [TrimSpace, hd, lit_empty]

/-- C7. Empty input: for every line whose trimmed form is empty,
`processMessage` applied to the trimmed line, which is what the session loop
hands it (line 77 trims, line 81 calls), returns "Say something..." and does
not terminate; the session writes that line to the client and goes on
reading. -/
theorem processMessage_trimmed_blank (u : Unicode) (openErr : GoString → Option GoString)
    (addr raw stamp clock : GoString) (h : TrimSpace u raw = lit "") :
    processMessage u clock (TrimSpace u raw) = (lit "Say something...", false) ∧
    (handleConnection u openErr addr [.line raw stamp clock]).client
      = [lit "Say something...\n"] ∧
    (handleConnection u openErr addr [.line raw stamp clock]).returned = false := by
  have hp : processMessage u clock (TrimSpace u raw) = (lit "Say something...", false) := by
    rw [h]; rfl
  refine ⟨hp, ?_, ?_⟩
  · simp only [handleConnection, deferred_client, sessionLoop, hp]
    rfl
  · simp only [handleConnection, deferred_returned, sessionLoop, hp]
    rfl

/-- Witness of C7, at a line of spaces, a tab and a line end. -/
theorem processMessage_trimmed_blank_witness :
    TrimSpace plainUnicode (lit "  \t \r\n") = lit "" ∧
    (handleConnection plainUnicode (fun _ => none) (lit "10.0.0.7:81")
      [.line (lit "  \t \r\n") (lit "T1") (lit "N1")]).client = [lit "Say something...\n"] :=
  ⟨by decide,
    (processMessage_trimmed_blank plainUnicode (fun _ => none) (lit "10.0.0.7:81")
      (lit "  \t \r\n") (lit "T1") (lit "N1") (by decide)).2.1⟩

/-! ## The name of the log file -/

theorem Index_single_cases (s : GoString) (c : Nat) :
    (Index s [c] = none ∧ c ∉ s) ∨
    ∃ pre post, s = pre ++ c :: post ∧ c ∉ pre ∧ Index s [c] = some pre.length := by
  by_cases h : c ∈ s
  · right
    obtain ⟨pre, post, hs, hpre⟩ := List.eq_append_cons_of_mem h
    exact ⟨pre, post, hs, hpre, by rw [hs]; exact Index_single_append post hpre⟩
  · left
    exact ⟨Index_single_none h, h⟩

/-- Replacing a one-byte string by a one-byte string changes that byte
wherever it stands and nothing else. -/
theorem replaceLoop_single (c d : Nat) :
    ∀ (fuel : Nat) (s : GoString), s.length ≤ fuel →
    replaceLoop [c] [d] fuel s = s.map (fun b => if b = c then d else b) := by
  intro fuel
  induction fuel with
  | zero =>
    intro s hs
    have : s = [] := List.length_eq_zero.mp (Nat.le_zero.mp hs)
    subst this
    rfl
  | succ n ih =>
    intro s hs
    have hid : ∀ l : GoString, c ∉ l → l.map (fun b => if b = c then d else b) = l := by
      intro l hl
      conv_rhs => rw [← List.map_id l]
      apply List.map_congr_left
      intro b hb
      have : b ≠ c := fun e => hl (e ▸ hb)
      simp [this]
    rcases Index_single_cases s c with ⟨h1, h2⟩ | ⟨pre, post, hs2, hpre, hidx⟩
    · simp only [replaceLoop, h1]
      exact (hid s h2).symm
    · have hlen : post.length ≤ n := by
        rw [hs2] at hs
        simp at hs
        omega
      simp only [replaceLoop, hidx]
      rw [ih _ (by rw [hs2]; simpa using hlen)]
      rw [hs2]
      simp [hid pre hpre]

theorem ReplaceAll_single (s : GoString) (c d : Nat) :
    ReplaceAll s [c] [d] = s.map (fun b => if b = c then d else b) := by
  unfold ReplaceAll
  by_cases h : c = d
  · subst h
    have hid : (fun b : Nat => if b = c then c else b) = id := by
      funext b
      by_cases hb : b = c <;> simp [hb]
    simp [hid]
  · have hne : ¬ ([c] = [d] ∨ [c] = ([] : GoString)) := by simp [h]
    rw [if_neg hne]
    exact replaceLoop_single c d s.length s (Nat.le_refl _)

/-- C10. Log file naming: the name is "client_", then `s`, then ".log",
where `s` has the length of the address, has `_` where the address has `:`
or `.` and the byte of the address everywhere else, so that `s` holds
neither `:` nor `.`; and the file `createLogFile` opens, when it opens one,
is the file of that name, whatever the file system answers. -/
theorem logFileName_spec (a : GoString) :
    ∃ s : GoString,
      logFileName a = lit "client_" ++ s ++ lit ".log" ∧
      s.length = a.length ∧
      (∀ (i c : Nat), a[i]? = some c → s[i]? = some (if c = 58 ∨ c = 46 then 95 else c)) ∧
      58 ∉ s ∧ 46 ∉ s ∧
      (∀ openErr, (createLogFile openErr a).1 = none ∨
        (createLogFile openErr a).1 = some (lit "client_" ++ s ++ lit ".log")) := by
  have hc : lit ":" = [58] := rfl
  have hd : lit "." = [46] := rfl
  have hu : lit "_" = [95] := rfl
  have hs : ReplaceAll (ReplaceAll a (lit ":") (lit "_")) (lit ".") (lit "_") =
      a.map (fun c => if c = 58 ∨ c = 46 then 95 else c) := by
    rw [hc, hd, hu, ReplaceAll_single, ReplaceAll_single, List.map_map]
    apply List.map_congr_left
    intro b _
    by_cases h1 : b = 58
    · simp [h1]
    · by_cases h2 : b = 46
      · simp [h2]
      · simp [h1, h2]
  refine ⟨a.map (fun c => if c = 58 ∨ c = 46 then 95 else c), ?_, ?_, ?_, ?_, ?_, ?_⟩
  · simp only [logFileName, hs]
  · simp
  · intro i c hi
    simp [List.getElem?_map, hi]
  · intro h
    obtain ⟨b, _, hb⟩ := List.mem_map.mp h
    split_ifs at hb <;> omega
  · intro h
    obtain ⟨b, _, hb⟩ := List.mem_map.mp h
    split_ifs at hb <;> omega
  · intro openErr
    simp only [createLogFile, logFileName, hs]
    cases openErr (lit "client_" ++
      a.map (fun c => if c = 58 ∨ c = 46 then 95 else c) ++ lit ".log") <;> simp

/-- An example of C10: the address 127.0.0.1:5000. -/
theorem logFileName_example :
    logFileName (lit "127.0.0.1:5000") = lit "client_127_0_0_1_5000.log" ∧
    logFileName (lit "[::1]:4000") = lit "client_[__1]_4000.log" := by
  decide

end EchoServer
